import Mathlib

/-!
Verification development for the SmartGov Ex-Gratia chatbot
(`smartgov_bot.py`): the rule-based intent classifier
(`fallback_intent_detection`), the application-ID extractor
(`re.findall` with pattern `\x7bbackslash}b[A-Z0-9]{6,12}\x7bbackslash}b`),
the status lookup (`check_application_status`), the per-conversation
dialog flag `waiting_for_app_id`, and the content-file loader
(`_load_file_content`).

Text is modelled as `List Char`.  Python `str.lower` / `str.upper` act on
ASCII letters exactly as Lean's `Char.toLower` / `Char.toUpper`, which is
the fragment exercised here.  The regex word class `\x7bbackslash}w` is
modelled as ASCII alphanumeric or underscore.
-/

namespace SmartGov

/-- Model of Python's substring test `needle in haystack`. -/
def containsSub (needle : List Char) : List Char → Bool
  | [] => needle.isPrefixOf []
  | c :: rest => needle.isPrefixOf (c :: rest) || containsSub needle rest

/-- Model of Python's `any(p in s for p in phrases)`. -/
def containsAny (s : List Char) (phrases : List (List Char)) : Bool :=
  phrases.any (fun p => containsSub p s)

/-- Regex word character (`\x7bbackslash}w`, ASCII fragment):
alphanumeric or underscore. -/
def wordChar (c : Char) : Bool := c.isAlphanum || c == '_'

/-- Character class `[A-Z0-9]` of the upper-case ID pattern. -/
def idCharU (c : Char) : Bool := c.isUpper || c.isDigit

/-- Character class `[a-z0-9]` of the lower-case ID pattern. -/
def idCharL (c : Char) : Bool := c.isLower || c.isDigit

/-- The `{6,12}` length bound of the ID patterns. -/
def lenOK (n : Nat) : Bool := decide (6 ≤ n) && decide (n ≤ 12)

/-- Left-to-right scan implementing
`re.findall` for the pattern "word boundary, 6 to 12 characters of
class `idc`, word boundary".  `prevWord` records whether the previous
character was a word character (string start counts as non-word);
`cand` holds the reversed candidate token currently being read, when the
current run of `idc`-characters started at a word boundary. -/
def scanAux (idc : Char → Bool) : Bool → Option (List Char) → List Char → List (List Char)
  | _, none, [] => []
  | _, some acc, [] => if lenOK acc.length then [ acc.reverse ] else []
  | prevWord, cand, c :: rest =>
    if idc c then
      match cand with
      | some acc => scanAux idc true (some (c :: acc)) rest
      | none =>
        if prevWord then scanAux idc true none rest
        else scanAux idc true (some [ c ]) rest
    else
      (match cand with
       | some acc => if !wordChar c && lenOK acc.length then [ acc.reverse ] else []
       | none => []) ++ scanAux idc (wordChar c) none rest

/-- `re.findall` of the bounded 6–12 token pattern over class `idc`. -/
def re_findall_token (idc : Char → Bool) (s : List Char) : List (List Char) :=
  scanAux idc false none s

/-- `re.search` of the bounded 6–12 token pattern: a match exists iff
`re.findall` returns a non-empty list. -/
def re_search_token (idc : Char → Bool) (s : List Char) : Bool :=
  !(re_findall_token idc s).isEmpty

/-- `smartgov_bot.py` line 179:
`re.findall(r'\x7bbackslash}b[A-Z0-9]{6,12}\x7bbackslash}b', message.upper())`. -/
def extractApplicationIds (message : List Char) : List (List Char) :=
  re_findall_token idCharU (message.map Char.toUpper)

/-- The intent labels of the bot (`valid_intents`, line 63). -/
inductive Intent where
  | greeting
  | exgratia_norms
  | application_procedure
  | status_check
  | apply_start
  | help
  | other
deriving DecidableEq, Repr

/-- `greeting_words` (line 78). -/
def greeting_words : List (List Char) :=
  [ "hello".data, "hi".data, "start".data, "hey".data, "namaste".data,
    "good morning".data, "good afternoon".data, "good evening".data ]

/-- `norms_phrases` (lines 83–87). -/
def norms_phrases : List (List Char) :=
  [ "norms".data, "amount".data, "money".data, "eligibility".data, "how much".data,
    "rate".data, "compensation".data, "house damage".data, "crop loss".data,
    "livestock".data, "injury".data, "death".data, "relief amount".data,
    "sanction".data, "criteria".data, "eligible".data, "qualify".data, "entitle".data ]

/-- `procedure_phrases` (lines 92–96). -/
def procedure_phrases : List (List Char) :=
  [ "apply".data, "application".data, "procedure".data, "process".data, "how to".data,
    "documents".data, "submit".data, "steps".data, "gram panchayat".data,
    "ward office".data, "requirements".data, "form".data, "paperwork".data,
    "where to apply".data, "when to apply".data ]

/-- `status_phrases` (lines 101–104). -/
def status_phrases : List (List Char) :=
  [ "status".data, "check".data, "track".data, "application id".data, "app id".data,
    "reference".data, "progress".data, "update".data, "approved".data,
    "pending".data, "rejected".data, "sanctioned".data ]

/-- `help_words` (line 110). -/
def help_words : List (List Char) :=
  [ "help".data, "support".data, "assist".data, "guidance".data, "information".data,
    "contact".data, "phone".data, "number".data ]

/-- Question words of the secondary pass (line 115). -/
def question_words : List (List Char) :=
  [ "what".data, "how".data, "when".data, "where".data, "why".data, "which".data ]

/-- Document words of the secondary pass (line 116). -/
def doc_words : List (List Char) :=
  [ "document".data, "paper".data, "certificate".data, "proof".data ]

/-- Money words of the secondary pass (line 118). -/
def money_words : List (List Char) :=
  [ "money".data, "amount".data, "rupee".data, "compensation".data ]

/-- `fallback_intent_detection` (lines 73–121): chained keyword checks on
the lower-cased message, in source order, with the loose
`\x7bbackslash}b[a-z0-9]{6,12}\x7bbackslash}b` search in the status
group and the question-shaped secondary pass before the final
`return 'other'`. -/
def fallback_intent_detection (message : List Char) : Intent :=
  let message_lower := message.map Char.toLower
  if containsAny message_lower greeting_words then .greeting
  else if containsAny message_lower norms_phrases then .exgratia_norms
  else if containsAny message_lower procedure_phrases then .application_procedure
  else if containsAny message_lower status_phrases || re_search_token idCharL message_lower then .status_check
  else if containsAny message_lower help_words then .help
  else if containsAny message_lower question_words then
    if containsAny message_lower doc_words then .application_procedure
    else if containsAny message_lower money_words then .exgratia_norms
    else .other
  else .other

/-! ### Spec-side formulations (for the refinement claims) -/

/-- Spec rule group 1: greeting phrases. -/
def greetingMatch (ml : List Char) : Bool := containsAny ml greeting_words

/-- Spec rule group 2: norms phrases. -/
def normsMatch (ml : List Char) : Bool := containsAny ml norms_phrases

/-- Spec rule group 3: procedure phrases. -/
def procedureMatch (ml : List Char) : Bool := containsAny ml procedure_phrases

/-- Spec rule group 4: status phrases or a loose 6–12 token. -/
def statusMatch (ml : List Char) : Bool :=
  containsAny ml status_phrases || re_search_token idCharL ml

/-- Spec rule group 5: help phrases. -/
def helpMatch (ml : List Char) : Bool := containsAny ml help_words

/-- Spec secondary pass, question shape with a document word. -/
def questionDocMatch (ml : List Char) : Bool :=
  containsAny ml question_words && containsAny ml doc_words

/-- Spec secondary pass, question shape with a money word. -/
def questionMoneyMatch (ml : List Char) : Bool :=
  containsAny ml question_words && containsAny ml money_words

/-- The ordered rule table of the spec: greeting, exgratia_norms,
application_procedure, status_check, help, then the question-shaped
secondary pass. -/
def specRuleGroups : List (Intent × (List Char → Bool)) :=
  [ (.greeting, greetingMatch), (.exgratia_norms, normsMatch),
    (.application_procedure, procedureMatch), (.status_check, statusMatch),
    (.help, helpMatch), (.application_procedure, questionDocMatch),
    (.exgratia_norms, questionMoneyMatch) ]

/-- First rule group with a positive match wins; default `other`. -/
def firstMatch : List (Intent × (List Char → Bool)) → List Char → Intent
  | [], _ => .other
  | (i, p) :: rest, ml => if p ml then i else firstMatch rest ml

/-- The classifier as the spec words it: a first-match fold over the
ordered rule table, on the lower-cased message. -/
def specClassify (message : List Char) : Intent :=
  firstMatch specRuleGroups (message.map Char.toLower)

/-- Maximal runs of characters satisfying `p` (accumulator reversed). -/
def runsBy (p : Char → Bool) : List Char → List Char → List (List Char)
  | acc, [] => if acc.isEmpty then [] else [ acc.reverse ]
  | acc, c :: rest =>
    if p c then runsBy p (c :: acc) rest
    else if acc.isEmpty then runsBy p [] rest
    else acc.reverse :: runsBy p [] rest

/-- Keep a run when its length is 6–12 and all its characters are in
class `idc`. -/
def keepRun (idc : Char → Bool) (r : List Char) : Bool :=
  lenOK r.length && r.all idc

/-- Modelled from the spec wording of C3: the extractor as "all maximal
runs of 6 to 12 alphanumeric characters bounded by NON-ALPHANUMERIC
boundaries", on the upper-cased input. -/
def specExtractAlnumBounded (message : List Char) : List (List Char) :=
  (runsBy (fun c => c.isAlphanum) [] (message.map Char.toUpper)).filter
    (fun r => lenOK r.length)

/-- Amended spec extractor: maximal runs of word characters
(alphanumeric or underscore) of the upper-cased input that are 6–12
characters long and entirely alphanumeric, in order of appearance. -/
def specExtractAmended (message : List Char) : List (List Char) :=
  (runsBy wordChar [] (message.map Char.toUpper)).filter (keepRun idCharU)

/-- Modelled from the spec wording of C2: the text contains an
alphanumeric token of length 6–12 bounded by NON-ALPHANUMERIC
boundaries. -/
def specTokenAlnumBounded (ml : List Char) : Bool :=
  !((runsBy (fun c => c.isAlphanum) [] ml).filter (fun r => lenOK r.length)).isEmpty

/-- Amended token condition of the status group: the text contains a
maximal word-character run (underscore counts as a word character) of
length 6–12 made of lower-case letters and digits. -/
def specTokenWordBounded (ml : List Char) : Bool :=
  !((runsBy wordChar [] ml).filter (keepRun idCharL)).isEmpty

/-! ### Status lookup (`check_application_status`, lines 295–350) -/

/-- One row of the status CSV, with the columns the handler reads. -/
structure ApplicationRecord where
  application_id : List Char
  applicant_name : List Char
  phone : List Char
  type : List Char
  status : List Char
  amount : Int
  date_applied : List Char
  remarks : List Char
deriving DecidableEq, Repr

/-- Outcome of the row query `df[df[..].str.upper() == app_id.upper()]`
followed by `result.iloc[0]` / `result.empty`. -/
inductive StatusLookupResult where
  | Found (r : ApplicationRecord)
  | NotFound
deriving DecidableEq, Repr

/-- Case-insensitive first match of the queried ID against the
`application_id` column, in row order (lines 297–301). -/
def lookupRecord (store : List ApplicationRecord) (app_id : List Char) : StatusLookupResult :=
  match store.find? (fun r => r.application_id.map Char.toUpper == app_id.map Char.toUpper) with
  | some r => .Found r
  | none => .NotFound

/-- The example row of the spec's lookup round-trip property:
application_id "23LDM786", status "Approved", amount 50000, remaining
fields chosen arbitrarily. -/
def exampleRecord : ApplicationRecord :=
  { application_id := "23LDM786".data
    applicant_name := "Ram Kumar".data
    phone := "9812345678".data
    type := "House Damage".data
    status := "Approved".data
    amount := 50000
    date_applied := "2023-10-05".data
    remarks := "Verified".data }

/-- Failure modes of reading/parsing the status store: the `except`
clause of `check_application_status` catches every exception of
`pd.read_csv` and of row access. -/
inductive ReadError where
  | missingFile
  | malformedRow
  | badAmount
deriving DecidableEq, Repr

/-- The view emitted by a status check. -/
inductive StatusView where
  | found (r : ApplicationRecord)
  | notFound (id' : List Char)
  | failure
deriving DecidableEq, Repr

/-- `check_application_status` (lines 295–350): the `try` block reads the
store and renders Found/NotFound; any read/parse failure is caught and
rendered as the generic try-again error view. -/
def check_application_status (store : Except ReadError (List ApplicationRecord))
    (app_id : List Char) : StatusView :=
  match store with
  | .error _ => .failure
  | .ok rows =>
    match lookupRecord rows app_id with
    | .Found r => .found r
    | .NotFound => .notFound app_id

/-! ### Dialog controller -/

/-- The view/action a handler emits back to the transport. -/
inductive Action where
  | welcome
  | norms
  | procedure
  | askForId
  | statusResult (v : StatusView)
  | helpView
  | fallback
  | noAction
deriving DecidableEq, Repr

/-- `handle_intent` (lines 188–205), returning the new value of the
`waiting_for_app_id` flag and the emitted view.
`check_application_status` always pops the flag (line 350);
`ask_for_application_id` sets it (line 293); every other branch leaves
it untouched. -/
def handle_intent (store : Except ReadError (List ApplicationRecord)) (waiting : Bool)
    (intent : Intent) (message : List Char) : Bool × Action :=
  match intent with
  | .greeting => (waiting, .welcome)
  | .exgratia_norms => (waiting, .norms)
  | .application_procedure => (waiting, .procedure)
  | .apply_start => (waiting, .procedure)
  | .status_check =>
    match extractApplicationIds message with
    | id' :: _ => (false, .statusResult (check_application_status store id'))
    | [] => (true, .askForId)
  | .help => (waiting, .helpView)
  | .other => (waiting, .fallback)

/-- `message_handler` (lines 172–186): while `waiting_for_app_id` is
set, an inbound text with at least one extractable ID goes straight to
the status check (which pops the flag); otherwise the message falls
through to intent classification and dispatch. -/
def message_handler (store : Except ReadError (List ApplicationRecord)) (waiting : Bool)
    (message : List Char) : Bool × Action :=
  match waiting, extractApplicationIds message with
  | true, id' :: _ => (false, .statusResult (check_application_status store id'))
  | _, _ => handle_intent store waiting (fallback_intent_detection message) message

/-- `button_handler` (lines 157–170), returning the new
`waiting_for_app_id` flag and the emitted view.  `option_3` routes to
`ask_for_application_id`, which sets the flag; `back_to_menu` routes to
`start_command`, which renders the menu and does not touch the flag. -/
def button_handler (waiting : Bool) (data : List Char) : Bool × Action :=
  if data = "option_1".data then (waiting, .norms)
  else if data = "option_2".data then (waiting, .procedure)
  else if data = "option_3".data then (true, .askForId)
  else if data = "help".data then (waiting, .helpView)
  else if data = "back_to_menu".data then (waiting, .welcome)
  else (waiting, .noAction)

/-! ### Content store (`_load_file_content`, lines 23–31) -/

/-- State of a content file as the loader can observe it:
present with contents, absent, or present but failing to read. -/
inductive FileState where
  | content (s : List Char)
  | absent
  | unreadable
deriving DecidableEq, Repr

/-- The fallback string returned when the file does not exist. -/
def info_unavailable : List Char :=
  "Information not available. Please contact support.".data

/-- The string returned from the `except` clause when reading throws. -/
def error_loading : List Char :=
  "Error loading information. Please contact support.".data

/-- `_load_file_content` (lines 23–31): returns the file's text when it
exists and reads cleanly, the fixed "Information not available" string
when `os.path.exists` is false, and the "Error loading information"
string when reading raises; it never propagates an exception. -/
def _load_file_content : FileState → List Char
  | .content s => s
  | .absent => info_unavailable
  | .unreadable => error_loading

/-! ### Helper lemmas -/

theorem if_singleton_append {α : Type} (b : Bool) (r : α) (L : List α) :
    (if b = true then [ r ] else []) ++ L = if b = true then r :: L else L := by
  cases b <;> simp

theorem keepRun_reverse_of_all_true {idc : Char → Bool} {a : List Char}
    (h : a.all idc = true) : keepRun idc a.reverse = lenOK a.length := by
  rw [keepRun, List.all_reverse, h, Bool.and_true, List.length_reverse]

theorem keepRun_reverse_of_all_false {idc : Char → Bool} {a : List Char}
    (h : a.all idc = false) : keepRun idc a.reverse = false := by
  rw [keepRun, List.all_reverse, h, Bool.and_false]

/-- The scanner implementing `re.findall` agrees, in every state, with
"split into maximal word-character runs, keep the 6–12 all-`idc` ones":
started fresh, inside a clean candidate run, or inside a disqualified
run. -/
theorem scan_eq_runs (idc : Char → Bool) (hsub : ∀ c, idc c = true → wordChar c = true) :
    ∀ s : List Char,
      (scanAux idc false none s = (runsBy wordChar [] s).filter (keepRun idc))
      ∧ (∀ (x : Char) (xs : List Char), (x :: xs).all idc = true →
          scanAux idc true (some (x :: xs)) s
            = (runsBy wordChar (x :: xs) s).filter (keepRun idc))
      ∧ (∀ (x : Char) (xs : List Char), (x :: xs).all idc = false →
          scanAux idc true none s = (runsBy wordChar (x :: xs) s).filter (keepRun idc)) := by
  intro s
  induction s with
  | nil =>
    refine ⟨rfl, ?_, ?_⟩
    · intro x xs hall
      have hk := keepRun_reverse_of_all_true hall
      simp only [scanAux, runsBy, List.isEmpty_cons, Bool.false_eq_true, if_false,
        List.filter_cons, hk, List.filter_nil]
    · intro x xs hall
      have hk := keepRun_reverse_of_all_false hall
      simp only [scanAux, runsBy, List.isEmpty_cons, Bool.false_eq_true, if_false,
        List.filter_cons, hk, List.filter_nil]
  | cons c rest ih =>
    obtain ⟨ih1, ih2, ih3⟩ := ih
    refine ⟨?_, ?_, ?_⟩
    · cases h1 : idc c with
      | true =>
        have h2 : wordChar c = true := hsub c h1
        simp only [scanAux, runsBy, h1, h2, if_true, Bool.false_eq_true, if_false]
        exact ih2 c [] (by simp [h1])
      | false =>
        cases h2 : wordChar c with
        | true =>
          simp only [scanAux, runsBy, h1, h2, if_true, Bool.false_eq_true, if_false,
            List.nil_append]
          exact ih3 c [] (by simp [h1])
        | false =>
          simp only [scanAux, runsBy, h1, h2, Bool.false_eq_true, if_false,
            List.nil_append, List.isEmpty_nil, if_true]
          exact ih1
    · intro x xs hall
      cases h1 : idc c with
      | true =>
        have h2 : wordChar c = true := hsub c h1
        simp only [scanAux, runsBy, h1, h2, if_true]
        exact ih2 c (x :: xs) (by simp [List.all_cons, h1, hall])
      | false =>
        cases h2 : wordChar c with
        | true =>
          simp only [scanAux, runsBy, h1, h2, if_true, Bool.false_eq_true, if_false,
            Bool.not_true, Bool.false_and, List.nil_append]
          exact ih3 c (x :: xs) (by simp [List.all_cons, h1])
        | false =>
          have hk := keepRun_reverse_of_all_true hall
          simp only [scanAux, runsBy, h1, h2, Bool.false_eq_true, if_false,
            Bool.not_false, Bool.true_and, List.isEmpty_cons, List.filter_cons, hk, ih1]
          exact if_singleton_append _ _ _
    · intro x xs hall
      cases h1 : idc c with
      | true =>
        have h2 : wordChar c = true := hsub c h1
        simp only [scanAux, runsBy, h1, h2, if_true]
        exact ih3 c (x :: xs) (by simp [List.all_cons, h1, hall])
      | false =>
        cases h2 : wordChar c with
        | true =>
          simp only [scanAux, runsBy, h1, h2, if_true, Bool.false_eq_true, if_false,
            List.nil_append]
          exact ih3 c (x :: xs) (by simp [List.all_cons, h1])
        | false =>
          have hk := keepRun_reverse_of_all_false hall
          simp only [scanAux, runsBy, h1, h2, Bool.false_eq_true, if_false,
            List.isEmpty_cons, List.nil_append, List.filter_cons, hk, ih1]

/-- Every character of class `[A-Z0-9]` is a word character. -/
theorem idCharU_subset_wordChar : ∀ c, idCharU c = true → wordChar c = true := by
  intro c h
  simp only [idCharU, Char.isAlphanum, Bool.or_eq_true] at h
  simp only [wordChar, Char.isAlphanum, Char.isAlpha, Bool.or_eq_true]
  tauto

/-- Every character of class `[a-z0-9]` is a word character. -/
theorem idCharL_subset_wordChar : ∀ c, idCharL c = true → wordChar c = true := by
  intro c h
  simp only [idCharL, Char.isAlphanum, Bool.or_eq_true] at h
  simp only [wordChar, Char.isAlphanum, Char.isAlpha, Bool.or_eq_true]
  tauto

/-- `runsBy` on a wholly-matching suffix, with a non-empty accumulator. -/
theorem runsBy_all_aux (p : Char → Bool) :
    ∀ (u : List Char) (x : Char) (acc : List Char), u.all p = true →
      runsBy p (x :: acc) u = [ (x :: acc).reverse ++ u ] := by
  intro u
  induction u with
  | nil =>
    intro x acc _
    simp [runsBy]
  | cons c t ih =>
    intro x acc hall
    obtain ⟨hc, ht⟩ : p c = true ∧ t.all p = true := by
      simpa [List.all_cons] using hall
    rw [runsBy, if_pos hc, ih c (x :: acc) ht]
    simp

/-- A non-empty list all of whose characters match `p` is one maximal
run. -/
theorem runsBy_of_all_true (p : Char → Bool) (c : Char) (t : List Char)
    (h : (c :: t).all p = true) : runsBy p [] (c :: t) = [ c :: t ] := by
  obtain ⟨hc, ht⟩ : p c = true ∧ t.all p = true := by
    simpa [List.all_cons] using h
  rw [runsBy, if_pos hc, runsBy_all_aux p t c [] ht]
  simp

theorem uint32_le_iff_toNat_le (a b : UInt32) : a ≤ b ↔ a.toNat ≤ b.toNat := Iff.rfl

theorem char_toNat_ofNatAux (n : Nat) (h : n.isValidChar) :
    (Char.ofNatAux n h).toNat = n := rfl

/-- Upper-casing an ASCII alphanumeric character lands in `[A-Z0-9]`. -/
theorem isAlphanum_toUpper {c : Char} (h : c.isAlphanum = true) :
    idCharU (Char.toUpper c) = true := by
  simp only [idCharU, Char.isAlphanum, Char.isAlpha, Char.isUpper, Char.isLower, Char.isDigit,
    Bool.or_eq_true, Bool.and_eq_true, decide_eq_true_eq, ge_iff_le,
    uint32_le_iff_toNat_le] at h ⊢
  unfold Char.toUpper
  by_cases hc : Char.toNat c ≥ 97 ∧ Char.toNat c ≤ 122
  · rw [if_pos hc]
    have hv : (Char.toNat c - 32).isValidChar := by
      left
      show Char.toNat c - 32 < 55296
      omega
    rw [Char.ofNat, dif_pos hv]
    left
    constructor
    · show 65 ≤ (Char.ofNatAux _ hv).toNat
      rw [char_toNat_ofNatAux]
      omega
    · show (Char.ofNatAux _ hv).toNat ≤ 90
      rw [char_toNat_ofNatAux]
      omega
  · rw [if_neg hc]
    simp only [Char.toNat] at hc
    rcases h with (⟨h1, h2⟩ | ⟨h1, h2⟩) | ⟨h1, h2⟩
    · left
      exact ⟨h1, h2⟩
    · exact absurd ⟨h1, h2⟩ hc
    · right
      exact ⟨h1, h2⟩

/-- The findall-style extractor agrees with the maximal-word-run
characterization. -/
theorem extract_eq_specAmended (message : List Char) :
    extractApplicationIds message = specExtractAmended message :=
  (scan_eq_runs idCharU idCharU_subset_wordChar (message.map Char.toUpper)).1

/-- The `re.search` test of the classifier equals the amended spec-side
word-bounded token condition. -/
theorem re_search_eq_specToken (ml : List Char) :
    re_search_token idCharL ml = specTokenWordBounded ml := by
  unfold re_search_token specTokenWordBounded re_findall_token
  rw [(scan_eq_runs idCharL idCharL_subset_wordChar ml).1]

/-! ### Claim theorems -/

/-- C1: the classifier evaluates its rule groups in the fixed priority
order greeting, exgratia_norms, application_procedure, status_check,
help, then the question-shaped secondary pass, returning the intent of
the first group with a positive match; hence a message matching a norms
phrase and no greeting phrase is classified `exgratia_norms` no matter
which later groups (e.g. procedure) also match, and
classify("What is the eligibility and how do I apply?") =
`exgratia_norms`. -/
theorem C1_classifier_priority_order :
    (∀ message : List Char, fallback_intent_detection message = specClassify message)
    ∧ (∀ message : List Char,
        containsAny (message.map Char.toLower) greeting_words = false →
        containsAny (message.map Char.toLower) norms_phrases = true →
        fallback_intent_detection message = Intent.exgratia_norms)
    ∧ fallback_intent_detection ( "What is the eligibility and how do I apply?".data )
        = Intent.exgratia_norms := by
  refine ⟨?_, ?_, by decide⟩
  · intro message
    simp only [fallback_intent_detection, specClassify, firstMatch, specRuleGroups,
      greetingMatch, normsMatch, procedureMatch, statusMatch, helpMatch,
      questionDocMatch, questionMoneyMatch]
    set ml := message.map Char.toLower with hml
    by_cases h1 : containsAny ml greeting_words
    · simp [h1]
    · by_cases h2 : containsAny ml norms_phrases
      · simp [h1, h2]
      · by_cases h3 : containsAny ml procedure_phrases
        · simp [h1, h2, h3]
        · by_cases h4 : (containsAny ml status_phrases || re_search_token idCharL ml)
          · simp [h1, h2, h3, h4]
          · by_cases h5 : containsAny ml help_words
            · simp [h1, h2, h3, h4, h5]
            · by_cases h6 : containsAny ml question_words
              · by_cases h7 : containsAny ml doc_words
                · simp [h1, h2, h3, h4, h5, h6, h7]
                · by_cases h8 : containsAny ml money_words
                  · simp [h1, h2, h3, h4, h5, h6, h7, h8]
                  · simp [h1, h2, h3, h4, h5, h6, h7, h8]
              · by_cases h7 : containsAny ml doc_words
                · by_cases h8 : containsAny ml money_words <;>
                    simp [h1, h2, h3, h4, h5, h6, h7, h8]
                · by_cases h8 : containsAny ml money_words <;>
                    simp [h1, h2, h3, h4, h5, h6, h7, h8]
  · intro message hg hn
    simp only [fallback_intent_detection, hg, hn, Bool.false_eq_true, if_false, if_true]

/-- Witness for C1: "Norms and apply" matches a norms phrase and a
procedure phrase and no greeting phrase, and is classified
`exgratia_norms`. -/
theorem C1_classifier_priority_order_witness :
    containsAny ( ( "Norms and apply".data ).map Char.toLower ) greeting_words = false
    ∧ containsAny ( ( "Norms and apply".data ).map Char.toLower ) norms_phrases = true
    ∧ fallback_intent_detection ( "Norms and apply".data ) = Intent.exgratia_norms :=
  ⟨by decide, by decide,
    C1_classifier_priority_order.2.1 ( "Norms and apply".data ) (by decide) (by decide)⟩

/-- C2 counterexample: "_qqqqqq" contains an alphanumeric token of
length 6 bounded by non-alphanumeric boundaries (the underscore and the
string end) and matches no greeting, norms, procedure, or status
phrase, yet the classifier returns `other`, not `status_check`: the
regex word boundary does not fire between `_` and `q`. -/
theorem C2_counterexample :
    specTokenAlnumBounded ( ( "_qqqqqq".data ).map Char.toLower ) = true
    ∧ containsAny ( ( "_qqqqqq".data ).map Char.toLower ) greeting_words = false
    ∧ containsAny ( ( "_qqqqqq".data ).map Char.toLower ) norms_phrases = false
    ∧ containsAny ( ( "_qqqqqq".data ).map Char.toLower ) procedure_phrases = false
    ∧ fallback_intent_detection ( "_qqqqqq".data ) = Intent.other :=
  ⟨by decide, by decide, by decide, by decide, by decide⟩

/-- C2 (amended): for every text whose lower-cased form contains a
status phrase, or contains a 6–12 token of lower-case letters and
digits forming a maximal word-character run (underscore counts as a
word character, not as a boundary), and that matches no greeting, norms,
or procedure phrase, the classifier returns `status_check`. -/
theorem C2_status_check_amended :
    ∀ message : List Char,
      (containsAny (message.map Char.toLower) status_phrases
        || specTokenWordBounded (message.map Char.toLower)) = true →
      containsAny (message.map Char.toLower) greeting_words = false →
      containsAny (message.map Char.toLower) norms_phrases = false →
      containsAny (message.map Char.toLower) procedure_phrases = false →
      fallback_intent_detection message = Intent.status_check := by
  intro message h4 h1 h2 h3
  rw [← re_search_eq_specToken] at h4
  simp only [fallback_intent_detection, h1, h2, h3, h4, Bool.false_eq_true, if_false, if_true]

/-- Witness for C2: "check" contains a status phrase, matches no
higher-priority phrase, and is classified `status_check`. -/
theorem C2_status_check_amended_witness :
    (containsAny ( ( "check".data ).map Char.toLower ) status_phrases
      || specTokenWordBounded ( ( "check".data ).map Char.toLower )) = true
    ∧ fallback_intent_detection ( "check".data ) = Intent.status_check :=
  ⟨by decide,
    C2_status_check_amended ( "check".data ) (by decide) (by decide) (by decide) (by decide)⟩

/-- C3 counterexample: the claim's own example fails — "THANKS" is a
6-character alphanumeric token, so the extractor returns two IDs, not
one; and a token bounded by an underscore is NOT extracted, because the
regex word boundary treats `_` as a word character, against the claim's
"non-alphanumeric boundaries". -/
theorem C3_counterexample :
    extractApplicationIds ( "My id is 23LDM786, thanks".data ) ≠ [ "23LDM786".data ]
    ∧ specExtractAlnumBounded ( "ab_cdefgh".data ) = [ "CDEFGH".data ]
    ∧ extractApplicationIds ( "ab_cdefgh".data ) = [] :=
  ⟨by decide, by decide, by decide⟩

/-- C3 (amended): the extractor upper-cases its input and returns, in
left-to-right order, the maximal word-character runs (underscore counts
as a word character) that are 6 to 12 characters long and consist
entirely of upper-case letters and digits; in particular
extractApplicationIds("My id is 23LDM786, thanks") =
["23LDM786", "THANKS"]. -/
theorem C3_extractor_amended :
    (∀ message : List Char, extractApplicationIds message = specExtractAmended message)
    ∧ extractApplicationIds ( "My id is 23LDM786, thanks".data )
        = [ "23LDM786".data, "THANKS".data ] :=
  ⟨extract_eq_specAmended, by decide⟩

/-- C10: the rule-based classifier only ever returns one of the six
labels greeting, exgratia_norms, application_procedure, status_check,
help, other — never `apply_start` — although `apply_start` is in the
declared intent set and `handle_intent` has a live branch for it (it
renders the procedure view), so that branch is unreachable from
free-text classification. -/
theorem C10_no_apply_start_from_rules :
    (∀ message : List Char,
      fallback_intent_detection message ∈
        [ Intent.greeting, Intent.exgratia_norms, Intent.application_procedure,
          Intent.status_check, Intent.help, Intent.other ])
    ∧ (∀ message : List Char, fallback_intent_detection message ≠ Intent.apply_start)
    ∧ (∀ (store : Except ReadError (List ApplicationRecord)) (waiting : Bool)
        (message : List Char),
        handle_intent store waiting Intent.apply_start message = (waiting, Action.procedure)) := by
  refine ⟨?_, ?_, ?_⟩
  · intro message
    unfold fallback_intent_detection
    simp only []
    split
    · simp
    · split
      · simp
      · split
        · simp
        · split
          · simp
          · split
            · simp
            · split
              · split
                · simp
                · split
                  · simp
                  · simp
              · simp
  · intro message
    unfold fallback_intent_detection
    simp only []
    split
    · simp
    · split
      · simp
      · split
        · simp
        · split
          · simp
          · split
            · simp
            · split
              · split
                · simp
                · split
                  · simp
                  · simp
              · simp
  · intro store waiting message
    rfl

/-- C4: for an input that is one whole alphanumeric token, the
extractor returns the upper-cased token at lengths 6 and 12 and nothing
at lengths 5 and 13; the no-match outcome is the empty list, never an
error (the extractor is a total function). -/
theorem C4_extractor_length_boundaries :
    ∀ t : List Char, t.all Char.isAlphanum = true →
      ((t.length = 6 ∨ t.length = 12) → extractApplicationIds t = [ t.map Char.toUpper ])
      ∧ ((t.length = 5 ∨ t.length = 13) → extractApplicationIds t = []) := by
  intro t hall
  have hmap : (t.map Char.toUpper).all idCharU = true := by
    rw [List.all_map]
    rw [List.all_eq_true] at hall ⊢
    intro x hx
    exact isAlphanum_toUpper (hall x hx)
  have hword : (t.map Char.toUpper).all wordChar = true := by
    rw [List.all_eq_true] at hmap ⊢
    intro x hx
    exact idCharU_subset_wordChar x (hmap x hx)
  have hlen : (t.map Char.toUpper).length = t.length := List.length_map t Char.toUpper
  have key : ∀ n : Nat, t.length = n →
      extractApplicationIds t
        = if lenOK n then [ t.map Char.toUpper ] else [] := by
    intro n hn
    rw [extract_eq_specAmended]
    unfold specExtractAmended
    cases hu : t.map Char.toUpper with
    | nil =>
      have ht : t = [] := by
        cases t
        · rfl
        · simp at hu
      subst ht
      simp only [List.length_nil] at hn
      subst hn
      simp [runsBy, lenOK]
    | cons c u =>
      rw [hu] at hword hmap hlen
      rw [runsBy_of_all_true wordChar c u hword]
      rw [List.filter_cons]
      rw [List.filter_nil]
      rw [keepRun, hmap, Bool.and_true, hlen, hn]
  constructor
  · intro h6
    rcases h6 with h | h
    · rw [key 6 h]
      simp [lenOK]
    · rw [key 12 h]
      simp [lenOK]
  · intro h5
    rcases h5 with h | h
    · rw [key 5 h]
      simp [lenOK]
    · rw [key 13 h]
      simp [lenOK]

/-- Witness for C4: "abc123" (length 6) is extracted as "ABC123";
"abcde" (length 5) yields the empty list. -/
theorem C4_extractor_length_boundaries_witness :
    ( "abc123".data ).all Char.isAlphanum = true
    ∧ extractApplicationIds ( "abc123".data ) = [ "ABC123".data ]
    ∧ extractApplicationIds ( "abcde".data ) = [] := by
  refine ⟨by decide, ?_, ?_⟩
  · have h := (C4_extractor_length_boundaries ( "abc123".data ) (by decide)).1
      (Or.inl (by decide))
    simpa using h
  · exact (C4_extractor_length_boundaries ( "abcde".data ) (by decide)).2
      (Or.inl (by decide))

/-- C5: the status lookup matches the queried ID case-insensitively
against the `application_id` column (equal-up-to-case queries agree),
returns Found with the first matching record in row order, returns
NotFound as a normal outcome when no row matches, and satisfies the
spec's round-trip example on the store
[{application_id "23LDM786", status "Approved", amount 50000, …}]. -/
theorem C5_lookup_case_insensitive_first_match :
    (∀ (store : List ApplicationRecord) (id1 id2 : List Char),
        id1.map Char.toUpper = id2.map Char.toUpper →
        lookupRecord store id1 = lookupRecord store id2)
    ∧ (∀ (pre post : List ApplicationRecord) (r : ApplicationRecord) (id' : List Char),
        (∀ r' ∈ pre, (r'.application_id.map Char.toUpper == id'.map Char.toUpper) = false) →
        (r.application_id.map Char.toUpper == id'.map Char.toUpper) = true →
        lookupRecord (pre ++ r :: post) id' = StatusLookupResult.Found r)
    ∧ (∀ (store : List ApplicationRecord) (id' : List Char),
        (∀ r' ∈ store, (r'.application_id.map Char.toUpper == id'.map Char.toUpper) = false) →
        lookupRecord store id' = StatusLookupResult.NotFound)
    ∧ lookupRecord [ exampleRecord ] ( "23ldm786".data ) = StatusLookupResult.Found exampleRecord
    ∧ lookupRecord [ exampleRecord ] ( "NOPE123".data ) = StatusLookupResult.NotFound := by
  refine ⟨?_, ?_, ?_, by decide, by decide⟩
  · intro store id1 id2 h
    simp only [lookupRecord, h]
  · intro pre
    induction pre with
    | nil =>
      intro post r id' _ hr
      have hfind : List.find?
          (fun x => x.application_id.map Char.toUpper == id'.map Char.toUpper) (r :: post)
          = some r := List.find?_cons_of_pos post hr
      simp only [List.nil_append, lookupRecord, hfind]
    | cons q pre' ih =>
      intro post r id' hpre hr
      have hq : (q.application_id.map Char.toUpper == id'.map Char.toUpper) = false :=
        hpre q (List.mem_cons_self q pre')
      have hrest : ∀ r' ∈ pre', (r'.application_id.map Char.toUpper == id'.map Char.toUpper) = false :=
        fun r' hm => hpre r' (List.mem_cons_of_mem q hm)
      have hfind : List.find?
          (fun x => x.application_id.map Char.toUpper == id'.map Char.toUpper)
          (q :: (pre' ++ r :: post))
          = List.find?
            (fun x => x.application_id.map Char.toUpper == id'.map Char.toUpper)
            (pre' ++ r :: post) :=
        List.find?_cons_of_neg _ (by simp [hq])
      have hres := ih post r id' hrest hr
      unfold lookupRecord at hres ⊢
      rw [List.cons_append, hfind]
      exact hres
  · intro store id' hall
    have : store.find? (fun r => r.application_id.map Char.toUpper == id'.map Char.toUpper) = none := by
      rw [List.find?_eq_none]
      intro x hx
      simp [hall x hx]
    simp only [lookupRecord, this]

/-- Witness for C5: the singleton store and the lower-cased query of the
spec's round-trip example. -/
theorem C5_lookup_case_insensitive_first_match_witness :
    (exampleRecord.application_id.map Char.toUpper
        == ( "23ldm786".data ).map Char.toUpper) = true
    ∧ lookupRecord [ exampleRecord ] ( "23ldm786".data )
        = StatusLookupResult.Found exampleRecord := by
  refine ⟨by decide, ?_⟩
  have h := C5_lookup_case_insensitive_first_match.2.1 [] [] exampleRecord
    ( "23ldm786".data ) (by simp) (by decide)
  simpa using h

/-- C6: a failure to read or parse the status store during a status
check yields the failure view (the generic try-again error), never the
NotFound view, and the message handler completes normally, popping the
awaiting flag. -/
theorem C6_read_failure_yields_failure_view :
    (∀ (e : ReadError) (id' : List Char),
        check_application_status (Except.error e) id' = StatusView.failure)
    ∧ (∀ (e : ReadError) (id1 id2 : List Char),
        check_application_status (Except.error e) id1 ≠ StatusView.notFound id2)
    ∧ (∀ (e : ReadError) (message : List Char) (id' : List Char) (rest : List (List Char)),
        extractApplicationIds message = id' :: rest →
        message_handler (Except.error e) true message
          = (false, Action.statusResult StatusView.failure)) := by
  refine ⟨?_, ?_, ?_⟩
  · intro e id'
    rfl
  · intro e id1 id2
    simp [check_application_status]
  · intro e message id' rest h
    simp only [message_handler, h]
    rfl

/-- Witness for C6: a missing status file while "23LDM786" is supplied
produces the failure view and clears the flag. -/
theorem C6_read_failure_yields_failure_view_witness :
    extractApplicationIds ( "23LDM786".data ) = "23LDM786".data :: []
    ∧ message_handler (Except.error ReadError.missingFile) true ( "23LDM786".data )
        = (false, Action.statusResult StatusView.failure) :=
  ⟨by decide,
    C6_read_failure_yields_failure_view.2.2 ReadError.missingFile ( "23LDM786".data )
      ( "23LDM786".data ) [] (by decide)⟩

/-- C7: from Idle, a status_check message with no extractable ID moves
the conversation to AwaitingApplicationId with the ID prompt; on the
next inbound text with at least one extractable ID, the conversation
returns to Idle and the status lookup runs on the first extracted ID. -/
theorem C7_status_check_dialog_transitions :
    ∀ (store : Except ReadError (List ApplicationRecord)) (msg1 msg2 : List Char)
      (id' : List Char) (rest : List (List Char)),
      fallback_intent_detection msg1 = Intent.status_check →
      extractApplicationIds msg1 = [] →
      extractApplicationIds msg2 = id' :: rest →
      message_handler store false msg1 = (true, Action.askForId)
      ∧ message_handler store true msg2
          = (false, Action.statusResult (check_application_status store id')) := by
  intro store msg1 msg2 id' rest h1 h2 h3
  constructor
  · simp only [message_handler, h1, h2, handle_intent]
  · simp only [message_handler, h3]

/-- Witness for C7: "check" classifies as status_check with no
extractable ID; the follow-up "23LDM786" triggers the lookup. -/
theorem C7_status_check_dialog_transitions_witness :
    fallback_intent_detection ( "check".data ) = Intent.status_check
    ∧ extractApplicationIds ( "check".data ) = []
    ∧ message_handler (Except.ok [ exampleRecord ]) false ( "check".data )
        = (true, Action.askForId)
    ∧ message_handler (Except.ok [ exampleRecord ]) true ( "23LDM786".data )
        = (false, Action.statusResult
            (check_application_status (Except.ok [ exampleRecord ]) ( "23LDM786".data ))) := by
  refine ⟨by decide, by decide, ?_, ?_⟩
  · exact (C7_status_check_dialog_transitions (Except.ok [ exampleRecord ])
      ( "check".data ) ( "23LDM786".data ) ( "23LDM786".data ) []
      (by decide) (by decide) (by decide)).1
  · exact (C7_status_check_dialog_transitions (Except.ok [ exampleRecord ])
      ( "check".data ) ( "23LDM786".data ) ( "23LDM786".data ) []
      (by decide) (by decide) (by decide)).2

/-- C8 counterexample: after the "back to menu" control event the
awaiting-application-ID flag is still set — `start_command` renders the
menu without clearing `waiting_for_app_id` — so a subsequent
"23LDM786" still triggers a status lookup instead of being classified
afresh. -/
theorem C8_counterexample :
    button_handler true ( "back_to_menu".data ) = (true, Action.welcome)
    ∧ (button_handler true ( "back_to_menu".data )).1 ≠ false
    ∧ message_handler (Except.ok [ exampleRecord ])
        (button_handler true ( "back_to_menu".data )).1 ( "23LDM786".data )
        = (false, Action.statusResult
            (check_application_status (Except.ok [ exampleRecord ]) ( "23LDM786".data ))) :=
  ⟨by decide, by decide, by decide⟩

/-- C8 (amended): on the "back to menu" control event the welcome/menu
view is rendered and the awaiting-application-ID flag is left exactly
as it was — a pending AwaitingApplicationId state is NOT discarded. -/
theorem C8_back_to_menu_amended :
    ∀ waiting : Bool,
      button_handler waiting ( "back_to_menu".data ) = (waiting, Action.welcome) := by
  intro waiting
  cases waiting <;> decide

/-- C9 counterexample: for a present-but-unreadable content file the
loader returns the distinct "Error loading information…" string, not
the "Information not available…" fallback the claim names. -/
theorem C9_counterexample :
    _load_file_content FileState.unreadable ≠ info_unavailable
    ∧ _load_file_content FileState.unreadable = error_loading :=
  ⟨by decide, by decide⟩

/-- C9 (amended): the content loader returns the file text when
readable, the fixed "Information not available…" string when the file
is absent, and the fixed "Error loading information…" string when the
file exists but reading fails; being a total function it never raises
for a missing resource. -/
theorem C9_content_fallback_amended :
    _load_file_content FileState.absent = info_unavailable
    ∧ _load_file_content FileState.unreadable = error_loading
    ∧ (∀ s : List Char, _load_file_content (FileState.content s) = s) :=
  ⟨rfl, rfl, fun _ => rfl⟩

end SmartGov
